import Mathlib

/-!
# Animal: the avatar controller

A shallow embedding of `server/controller/animal.go` and `server/utils/paw.go`.

* A handler writes one body on every path, with `c.String`, `c.Data` or
  `c.JSON`; it is modelled as a function returning the status sent and that
  body, together with the ordered log of the calls it made into the digest and
  rendering functions.
* The status of a gin response is fixed once the headers are written.
  `c.BindJSON` answers a body that fails to bind with status 400 and writes the
  headers (`AbortWithError`) without ending the handler, so whatever
  `AnimalStats` writes afterwards goes out under status 400.
* `gin.Context` is modelled by what the handlers read from it: the route
  parameters, the query values (`c.Query` yields the empty string for an
  absent key) and the outcome of binding the body.
* The `image` package, `utils.Sha256`, the `nano/address` library and
  `strings.ToLower` are not part of the two source files; they are fields of
  `Env`, so every theorem holds for all of their behaviours.
* A Go function returning `(value, error)` is a function into a pair: Go hands
  back a value also when the error is set, and two call sites ignore the error.
-/

namespace Animal

/-! ## Data model -/

/-- Byte slices, one natural number per byte. -/
abbrev Bytes := List Nat

/-- Go `error`: `none` is nil, `some msg` an error whose `Error()` text is `msg`. -/
abbrev GoError := Option String

/-- Go `map[string]V`, as an association list with pairwise distinct keys kept
in order of first insertion. -/
abbrev GoMap (V : Type) := List (String × V)

/-- Map read `m[k]` with the presence flag. -/
def GoMap.load {V : Type} : GoMap V → String → Option V
  | [], _ => none
  | (k', v) :: rest, k => if k' = k then some v else GoMap.load rest k

/-- Map write `m[k] = v`: replaces the value of an existing key, adds a new key
otherwise. -/
def GoMap.store {V : Type} : GoMap V → String → V → GoMap V
  | [], k, v => [(k, v)]
  | (k', v') :: rest, k, v =>
    if k' = k then (k, v) :: rest else (k', v') :: GoMap.store rest k v

/-- Keys of a map. -/
def GoMap.keys {V : Type} (m : GoMap V) : List String := m.map Prod.fst

/-- Modelled from the spec: the `image.Asset` type is declared in the image
package, which is not among the sources; an asset has a file/identifier, the
only field the controller reads. -/
structure Asset where
  FileName : String
deriving DecidableEq, Repr

/-- Modelled from the spec: the colour type of the image package, an RGB(+alpha)
value; its HTML rendering `ToHTML` is a field of `Env`. -/
structure Color where
  R : Nat
  G : Nat
  B : Nat
  A : Nat
deriving DecidableEq, Repr

/-- Modelled from the spec: the `image.Accessories` type is declared in the image
package; these are the fields `AnimalStats` reads. A nil asset pointer is
`none`. `AccessoryColors` is a Go map from colour category to colour. -/
structure Accessories where
  BGColor : String
  GlassesAsset : Option Asset
  HatAsset : Option Asset
  MiscAsset : Option Asset
  MouthAsset : Option Asset
  ShirtPantsAsset : Option Asset
  ShoeAsset : Option Asset
  TailAccessory : Option Asset
  AccessoryColors : GoMap Color
deriving DecidableEq, Repr

/-- The functions the controller calls that live outside the two source files. -/
structure Env where
  /-- Go `strings.ToLower`. -/
  ToLower : String → String
  /-- Library `address.ValidateAddress` of `paw-digital/nano`. -/
  addressValidate : String → Bool
  /-- Library `address.AddressToPub` of `paw-digital/nano`. -/
  addressToPub : String → Bytes × GoError
  /-- Digest `utils.Sha256(data, seed)`. -/
  Sha256 : String → String → String
  /-- Vanity table lookup `image.GetAssets().GetVanityAsset(address)`. -/
  GetVanityAsset : String → Option Asset
  /-- Selection `image.GetAccessoriesForHash(hash, withBackground)`. -/
  GetAccessoriesForHash : String → Bool → Accessories × GoError
  /-- Composition `image.CombineSVG(accessories)`. -/
  CombineSVG : Accessories → Bytes × GoError
  /-- Vanity rendering `image.PureSVG(asset, withBackground)`. -/
  PureSVG : Asset → Bool → Bytes × GoError
  /-- Raster conversion `image.ConvertSvgToBinary(svg, format, size)`. -/
  ConvertSvgToBinary : Bytes → String → Nat → Bytes × GoError
  /-- Colour rendering `color.ToHTML(withHash)`. -/
  ToHTML : Color → Bool → String

/-- The calls a handler makes into the digest and rendering functions, with
their arguments. -/
inductive Call where
  | sha256 (data seed : String)
  | getAccessoriesForHash (hash : String) (withBackground : Bool)
  | combineSVG (accessories : Accessories)
  | pureSVG (asset : Asset) (withBackground : Bool)
  | convertSvgToBinary (svg : Bytes) (format : String) (size : Nat)
deriving DecidableEq, Repr

/-- The type `AnimalStatsResponseItem`, `map[string]map[string]string`. -/
abbrev AnimalStatsResponseItem := GoMap (GoMap String)

/-- The response a handler sends: the status that goes out and the body written
with `c.String`, `c.Data` or `c.JSON`. -/
inductive Response where
  | string (code : Nat) (body : String)
  | data (code : Nat) (contentType : String) (body : Bytes)
  | json (code : Nat) (body : AnimalStatsResponseItem)
deriving DecidableEq, Repr

/-- HTTP status of a response. -/
def Response.code : Response → Nat
  | .string code _ => code
  | .data code _ _ => code
  | .json code _ => code

/-- What a handler did: the calls it made, in order, and the response. -/
structure Outcome where
  calls : List Call
  resp : Response
deriving DecidableEq, Repr

/-- The type `AnimalStatsRequest`. -/
structure AnimalStatsRequest where
  Addresses : List String
deriving DecidableEq, Repr

/-- What the handlers read of a `gin.Context`. `BindJSON` is the outcome of
`c.BindJSON(&reqJson)` on the body of the request: the request value as the
decoder leaves it, which may be partly filled when the error is set, and the
error. -/
structure Context where
  Param : String → String
  Query : String → String
  BindJSON : AnimalStatsRequest × GoError

/-- The `AnimalController`; the statistics channel is unused by the handlers here
(its only use is commented out in the source). -/
structure AnimalController where
  Seed : String

/-! ## Go library functions -/

/-- Value of a decimal digit. -/
def digitVal (ch : Char) : Option Nat :=
  if 48 ≤ ch.toNat ∧ ch.toNat ≤ 57 then some (ch.toNat - 48) else none

/-- Accumulates a run of decimal digits; `none` at the first other character. -/
def parseDigits : List Char → Nat → Option Nat
  | [], n => some n
  | ch :: rest, n =>
    match digitVal ch with
    | none => none
    | some d => parseDigits rest (n * 10 + d)

/-- Go `strconv.Atoi` with a 64-bit `int`: an optional sign followed by one or
more decimal digits, in the range of `int`; `none` stands for a non-nil error. -/
def Atoi (s : String) : Option Int :=
  match s.data with
  | [] => none
  | '-' :: rest =>
    if rest = [] then none
    else match parseDigits rest 0 with
      | none => none
      | some n => if n ≤ 2 ^ 63 then some (-(n : Int)) else none
  | '+' :: rest =>
    if rest = [] then none
    else match parseDigits rest 0 with
      | none => none
      | some n => if n < 2 ^ 63 then some (n : Int) else none
  | ch :: rest =>
    match parseDigits (ch :: rest) 0 with
    | none => none
    | some n => if n < 2 ^ 63 then some (n : Int) else none

/-- Go conversion `uint(size)` of an `int` on a 64-bit platform. -/
def uint (size : Int) : Nat := (size % 2 ^ 64).toNat

/-- Lower-case hexadecimal digit. -/
def hexDigit (n : Nat) : Char := "0123456789abcdef".data.getD n '0'

/-- Go `hex.EncodeToString`. -/
def hexEncodeToString (bs : Bytes) : String :=
  ⟨bs.flatMap fun b => [hexDigit (b / 16 % 16), hexDigit (b % 16)]⟩

/-! ## utils/paw.go -/

/-- Character class of `pawRegexStr`. -/
def pawAlphabet : List Char := "13456789abcdefghijkmnopqrstuwxyz".data

/-- Whether `pawRegexStr`,
`(?:paw)(?:_)(?:1|3)(?:[13456789abcdefghijkmnopqrstuwxyz]{59})`, matches at the
start of the text. -/
def pawRegexMatchHere : List Char → Bool
  | 'p' :: 'a' :: 'w' :: '_' :: d :: rest =>
    (d == '1' || d == '3') && decide (59 ≤ rest.length)
      && (rest.take 59).all (fun ch => decide (ch ∈ pawAlphabet))
  | _ => false

/-- The test `pawRegex.MatchString`: the expression is not anchored, so it matches when
it matches at some position. -/
def pawRegexMatchString (account : String) : Bool :=
  account.data.tails.any pawRegexMatchHere

/-- The function `ValidateAddress`: true when the text matches `pawRegexStr` and
the library accepts it as an address. -/
def ValidateAddress (env : Env) (account : String) : Bool :=
  if !pawRegexMatchString account then false
  else env.addressValidate account

/-- The function `AddressToPub`: the hex text of the public key; the library
error is dropped. -/
def AddressToPub (env : Env) (account : String) : String :=
  let pubkey := (env.addressToPub account).1
  hexEncodeToString pubkey

/-! ## controller/animal.go -/

/-- Default size of PNG/WEBP images. -/
def defaultRasterSize : Int := 128

/-- Minimum size of PNG/WEBP converted output. -/
def minConvertedSize : Int := 100

/-- Maximum size of PNG/WEBP converted output. -/
def maxConvertedSize : Int := 1000

/-- Text of the 400 answer for an unsupported format. -/
def formatMessage : String := "Valid formats are \x27svg\x27, \x27png\x27, or \x27webp\x27"

/-- Text of the 400 answer for a bad size,
`fmt.Sprintf("size must be an integer between %d and %d", ...)`. -/
def sizeMessage : String :=
  "size must be an integer between " ++ toString minConvertedSize ++ " and "
    ++ toString maxConvertedSize

/-- The function `generateIcon`: generate animal with given hash. The early returns of the
option checks are the `Except.error` branches. -/
def generateIcon (env : Env) (hash : String) (c : Context) : Outcome :=
  let format := env.ToLower (c.Query "format")
  let checked : Except Response (String × Int) :=
    if format = "" ∨ format = "svg" then
      .ok ("svg", 0)
    else if format ≠ "png" ∧ format ≠ "webp" then
      .error (.string 400 formatMessage)
    else
      let sizeStr := c.Query "size"
      if sizeStr = "" then
        .ok (format, defaultRasterSize)
      else
        match Atoi (c.Query "size") with
        | none => .error (.string 400 sizeMessage)
        | some size =>
          if size < minConvertedSize ∨ size > maxConvertedSize then
            .error (.string 400 sizeMessage)
          else
            .ok (format, size)
  match checked with
  | .error r => ⟨[], r⟩
  | .ok (format, size) =>
    let withBackground := decide (env.ToLower (c.Query "background") = "true")
    let accessories := env.GetAccessoriesForHash hash withBackground
    let log1 := [Call.getAccessoriesForHash hash withBackground]
    match accessories.2 with
    | some err => ⟨log1, .string 500 err⟩
    | none =>
      let svg := env.CombineSVG accessories.1
      let log2 := log1 ++ [Call.combineSVG accessories.1]
      match svg.2 with
      | some _ => ⟨log2, .string 500 "Error occured"⟩
      | none =>
        if format ≠ "svg" then
          let converted := env.ConvertSvgToBinary svg.1 format (uint size)
          let log3 := log2 ++ [Call.convertSvgToBinary svg.1 format (uint size)]
          match converted.2 with
          | some _ => ⟨log3, .string 500 "Error occured"⟩
          | none => ⟨log3, .data 200 ("image/" ++ format) converted.1⟩
        else
          ⟨log2, .data 200 "image/svg+xml; charset=utf-8" svg.1⟩

/-- The function `generateVanityAsset`: return vanity with given options. The error of
`PureSVG` is assigned and then overwritten or dropped, never tested. -/
def generateVanityAsset (env : Env) (vanity : Asset) (c : Context) : Outcome :=
  let format := env.ToLower (c.Query "format")
  let checked : Except Response (String × Int) :=
    if format = "" ∨ format = "svg" then
      .ok ("svg", 0)
    else if format ≠ "png" ∧ format ≠ "webp" then
      .error (.string 400 formatMessage)
    else
      let sizeStr := c.Query "size"
      if sizeStr = "" then
        .ok (format, defaultRasterSize)
      else
        match Atoi (c.Query "size") with
        | none => .error (.string 400 sizeMessage)
        | some size =>
          if size < minConvertedSize ∨ size > maxConvertedSize then
            .error (.string 400 sizeMessage)
          else
            .ok (format, size)
  match checked with
  | .error r => ⟨[], r⟩
  | .ok (format, size) =>
    let withBackground := decide (env.ToLower (c.Query "background") = "true")
    let svg := env.PureSVG vanity withBackground
    let log1 := [Call.pureSVG vanity withBackground]
    if format ≠ "svg" then
      let converted := env.ConvertSvgToBinary svg.1 format (uint size)
      let log2 := log1 ++ [Call.convertSvgToBinary svg.1 format (uint size)]
      match converted.2 with
      | some _ => ⟨log2, .string 500 "Error occured"⟩
      | none => ⟨log2, .data 200 ("image/" ++ format) converted.1⟩
    else
      ⟨log1, .data 200 "image/svg+xml; charset=utf-8" svg.1⟩

/-- The handler `AnimalController.GetAnimal`: return animal for given address. -/
def GetAnimal (env : Env) (mc : AnimalController) (c : Context) : Outcome :=
  let address := c.Param "address"
  let valid := ValidateAddress env address
  if !valid then
    ⟨[], .string 400 "Invalid address"⟩
  else
    match env.GetVanityAsset address with
    | some vanity => generateVanityAsset env vanity c
    | none =>
      let pubKey := AddressToPub env address
      let sha256 := env.Sha256 pubKey mc.Seed
      let rest := generateIcon env sha256 c
      ⟨Call.sha256 pubKey mc.Seed :: rest.calls, rest.resp⟩

/-- Value stored under an accessory key: the file name, or `"none"` for a nil
asset. -/
def assetName : Option Asset → String
  | some asset => asset.FileName
  | none => "none"

/-- The loop `for k, v := range accessories.AccessoryColors` on the entry of
one address. -/
def statsColors (env : Env) : GoMap Color → GoMap String → GoMap String
  | [], entry => entry
  | (k, v) :: rest, entry =>
    statsColors env rest (GoMap.store entry ("color_" ++ k) (env.ToHTML v true))

/-- The map built in `ret[address]` by one pass of the loop of `AnimalStats`,
in the order of the assignments. -/
def statsEntry (env : Env) (accessories : Accessories) : GoMap String :=
  let entry : GoMap String := []
  let entry := GoMap.store entry "background_color" accessories.BGColor
  let entry := GoMap.store entry "glasses" (assetName accessories.GlassesAsset)
  let entry := GoMap.store entry "hat" (assetName accessories.HatAsset)
  let entry := GoMap.store entry "misc" (assetName accessories.MiscAsset)
  let entry := GoMap.store entry "mouth" (assetName accessories.MouthAsset)
  let entry := GoMap.store entry "shirt_pants" (assetName accessories.ShirtPantsAsset)
  let entry := GoMap.store entry "shoes" (assetName accessories.ShoeAsset)
  let entry := GoMap.store entry "tail_accessory" (assetName accessories.TailAccessory)
  statsColors env accessories.AccessoryColors entry

/-- The status that goes out for a write with status `code`: gin keeps the
status of the headers already written, if any. -/
def sentStatus (committed : Option Nat) (code : Nat) : Nat :=
  match committed with
  | some status => status
  | none => code

/-- The loop over `reqJson.Addresses` of `AnimalStats`, followed by
`c.JSON(200, ret)`; `committed` is the status of the headers already written,
`ret` and `log` are the map and the call log so far. -/
def statsLoop (env : Env) (mc : AnimalController) (committed : Option Nat) :
    List String → AnimalStatsResponseItem → List Call → Outcome
  | [], ret, log => ⟨log, .json (sentStatus committed 200) ret⟩
  | address :: rest, ret, log =>
    if !ValidateAddress env address then
      ⟨log, .string (sentStatus committed 400) ("Invalid address in address list " ++ address)⟩
    else
      let pubKey := AddressToPub env address
      let sha256 := env.Sha256 pubKey mc.Seed
      let accessories := (env.GetAccessoriesForHash sha256 true).1
      statsLoop env mc committed rest (GoMap.store ret address (statsEntry env accessories))
        (log ++ [Call.sha256 pubKey mc.Seed, Call.getAccessoriesForHash sha256 true])

/-- The handler `AnimalController.AnimalStats`. The error of `c.BindJSON` is not
looked at by the handler, but on an error gin has answered 400 and written the
headers, and the handler goes on with the request value as bound. -/
def AnimalStats (env : Env) (mc : AnimalController) (c : Context) : Outcome :=
  let reqJson := c.BindJSON.1
  let committed : Option Nat :=
    match c.BindJSON.2 with
    | some _ => some 400
    | none => none
  statsLoop env mc committed reqJson.Addresses [] []

/-! ## Decomposition used by the proofs -/

/-- The option checks that open both `generateIcon` and `generateVanityAsset`
(the same statements in both): the lower-cased format and the size, or the 400
answer of the early return. -/
def checkedOptions (env : Env) (c : Context) : Except Response (String × Int) :=
  let format := env.ToLower (c.Query "format")
  if format = "" ∨ format = "svg" then
    .ok ("svg", 0)
  else if format ≠ "png" ∧ format ≠ "webp" then
    .error (.string 400 formatMessage)
  else
    let sizeStr := c.Query "size"
    if sizeStr = "" then
      .ok (format, defaultRasterSize)
    else
      match Atoi (c.Query "size") with
      | none => .error (.string 400 sizeMessage)
      | some size =>
        if size < minConvertedSize ∨ size > maxConvertedSize then
          .error (.string 400 sizeMessage)
        else
          .ok (format, size)

/-- The `background` flag both handlers compute after the option checks. -/
def backgroundFlag (env : Env) (c : Context) : Bool :=
  decide (env.ToLower (c.Query "background") = "true")

/-- The part of `generateIcon` after the option checks. -/
def iconRender (env : Env) (hash : String) (c : Context) (format : String) (size : Int) :
    Outcome :=
  let withBackground := decide (env.ToLower (c.Query "background") = "true")
  let accessories := env.GetAccessoriesForHash hash withBackground
  let log1 := [Call.getAccessoriesForHash hash withBackground]
  match accessories.2 with
  | some err => ⟨log1, .string 500 err⟩
  | none =>
    let svg := env.CombineSVG accessories.1
    let log2 := log1 ++ [Call.combineSVG accessories.1]
    match svg.2 with
    | some _ => ⟨log2, .string 500 "Error occured"⟩
    | none =>
      if format ≠ "svg" then
        let converted := env.ConvertSvgToBinary svg.1 format (uint size)
        let log3 := log2 ++ [Call.convertSvgToBinary svg.1 format (uint size)]
        match converted.2 with
        | some _ => ⟨log3, .string 500 "Error occured"⟩
        | none => ⟨log3, .data 200 ("image/" ++ format) converted.1⟩
      else
        ⟨log2, .data 200 "image/svg+xml; charset=utf-8" svg.1⟩

/-- The part of `generateVanityAsset` after the option checks. -/
def vanityRender (env : Env) (vanity : Asset) (c : Context) (format : String) (size : Int) :
    Outcome :=
  let withBackground := decide (env.ToLower (c.Query "background") = "true")
  let svg := env.PureSVG vanity withBackground
  let log1 := [Call.pureSVG vanity withBackground]
  if format ≠ "svg" then
    let converted := env.ConvertSvgToBinary svg.1 format (uint size)
    let log2 := log1 ++ [Call.convertSvgToBinary svg.1 format (uint size)]
    match converted.2 with
    | some _ => ⟨log2, .string 500 "Error occured"⟩
    | none => ⟨log2, .data 200 ("image/" ++ format) converted.1⟩
  else
    ⟨log1, .data 200 "image/svg+xml; charset=utf-8" svg.1⟩

/-- Content type the handlers send with a 200 answer for a resolved format. -/
def contentType (format : String) : String :=
  if format = "svg" then "image/svg+xml; charset=utf-8" else "image/" ++ format

/-- The size text does not parse as an integer, or the parsed value is below 100
or above 1000. -/
def badSize (sizeStr : String) : Bool :=
  match Atoi sizeStr with
  | none => true
  | some v => decide (v < 100 ∨ 1000 < v)

/-- Whether a call is a call of the raster converter. -/
def Call.isConvert : Call → Bool
  | .convertSvgToBinary _ _ _ => true
  | _ => false

/-- Whether a call is one of the rendering calls of the digest-driven path. -/
def Call.isRendering : Call → Bool
  | .getAccessoriesForHash _ _ => true
  | .combineSVG _ => true
  | .convertSvgToBinary _ _ _ => true
  | _ => false

/-- Whether a call computes or consults the digest. -/
def Call.usesDigest : Call → Bool
  | .sha256 _ _ => true
  | .getAccessoriesForHash _ _ => true
  | _ => false

/-- The request options as the interface describes them: the format, one of
svg, png and webp after lower-casing, an empty one meaning svg; the size, for
png and webp an integer between 100 and 1000 with default 128; the background
flag, set exactly when the lower-cased value is `true`. -/
structure Options where
  format : String
  size : Nat
  withBackground : Bool
deriving DecidableEq, Repr

/-- Resolution of the request options following the interface description, or
the text of the rejection. The size of an svg request is not meaningful and is
reported as 0. -/
def resolveOptions (env : Env) (c : Context) : Except String Options :=
  let format := env.ToLower (c.Query "format")
  let withBackground := decide (env.ToLower (c.Query "background") = "true")
  if format = "" ∨ format = "svg" then
    .ok ⟨"svg", 0, withBackground⟩
  else if format = "png" ∨ format = "webp" then
    if c.Query "size" = "" then .ok ⟨format, 128, withBackground⟩
    else
      match Atoi (c.Query "size") with
      | some v =>
        if 100 ≤ v ∧ v ≤ 1000 then .ok ⟨format, v.toNat, withBackground⟩
        else .error "size must be an integer between 100 and 1000"
      | none => .error "size must be an integer between 100 and 1000"
  else .error "Valid formats are \x27svg\x27, \x27png\x27, or \x27webp\x27"

/-! ## A concrete environment -/

/-- Lower-casing of the ASCII letters. -/
def asciiLower (s : String) : String := ⟨s.data.map Char.toLower⟩

/-- An address that passes `pawRegexStr`. -/
def addrA : String := "paw_1111111111111111111111111111111111111111111111111111111111111111"

/-- A second address that passes `pawRegexStr`. -/
def addrB : String := "paw_3abcdefghijkmnopqrstuwxyz13456789abcdefghijkmnopqrstuwxyz134"

/-- A text that does not pass `pawRegexStr`. -/
def addrBad : String := "nano_1111"

/-- A selection with glasses named after the digest and no other accessory. -/
def sampleAccessories (hash : String) : Accessories :=
  { BGColor := "#aabbcc"
    GlassesAsset := some ⟨hash ++ ".svg"⟩
    HatAsset := none
    MiscAsset := none
    MouthAsset := none
    ShirtPantsAsset := none
    ShoeAsset := none
    TailAccessory := none
    AccessoryColors := [("fur", ⟨1, 2, 3, 255⟩)] }

/-- A small environment: `addrB` is in the vanity table, and the vanity asset
`broken.svg` fails to render. -/
def sampleEnv : Env :=
  { ToLower := asciiLower
    addressValidate := fun _ => true
    addressToPub := fun _ => ([1, 255], none)
    Sha256 := fun data seed => data ++ seed
    GetVanityAsset := fun address => if address = addrB then some ⟨"vanity.svg"⟩ else none
    GetAccessoriesForHash := fun hash _ => (sampleAccessories hash, none)
    CombineSVG := fun _ => ([60, 115], none)
    PureSVG := fun asset _ =>
      if asset.FileName = "broken.svg" then ([], some "no such asset") else ([60, 118], none)
    ConvertSvgToBinary := fun _ _ size => ([size], none)
    ToHTML := fun _ _ => "#010203" }

/-- A request for `address` with the given `format` and `size` query values and
no body. -/
def sampleContext (address format size : String) : Context :=
  { Param := fun _ => address
    Query := fun k => if k = "format" then format else if k = "size" then size else ""
    BindJSON := (⟨[]⟩, some "EOF") }

/-- A stats request whose body binds to `addresses` with bind error `err`. -/
def statsContext (addresses : List String) (err : GoError) : Context :=
  { Param := fun _ => ""
    Query := fun _ => ""
    BindJSON := (⟨addresses⟩, err) }

/-- The seven accessory-category keys of a stats entry. -/
def accessoryKeys : List String :=
  ["glasses", "hat", "misc", "mouth", "shirt_pants", "shoes", "tail_accessory"]

/-- Whether a key is one of the seven accessory-category keys or `color_<name>`
for a colour category `<name>` of the selection. -/
def isListedKey (colors : GoMap Color) (key : String) : Bool :=
  decide (key ∈ accessoryKeys) || colors.any (fun p => decide (key = "color_" ++ p.1))

/-- The selection `AnimalStats` computes for one address: the digest of the
public key under the seed, selected with background enabled; the error of the
selection is dropped. -/
def statsSelection (env : Env) (mc : AnimalController) (address : String) : Accessories :=
  (env.GetAccessoriesForHash (env.Sha256 (AddressToPub env address) mc.Seed) true).1

/-- The map `ret` after the loop of `AnimalStats` has passed over valid
addresses. -/
def statsMap (env : Env) (mc : AnimalController) :
    List String → AnimalStatsResponseItem → AnimalStatsResponseItem
  | [], ret => ret
  | address :: rest, ret =>
    statsMap env mc rest
      (GoMap.store ret address (statsEntry env (statsSelection env mc address)))

/-- The status of the headers `c.BindJSON` has written when `AnimalStats` enters
its loop: 400 after a bind error, none otherwise. -/
def bindCommitted (c : Context) : Option Nat :=
  match c.BindJSON.2 with
  | some _ => some 400
  | none => none

/-! ## The option checks -/

theorem generateIcon_eq (env : Env) (hash : String) (c : Context) :
    generateIcon env hash c =
      match checkedOptions env c with
      | .error r => ⟨[], r⟩
      | .ok (format, size) => iconRender env hash c format size := rfl

theorem generateVanityAsset_eq (env : Env) (vanity : Asset) (c : Context) :
    generateVanityAsset env vanity c =
      match checkedOptions env c with
      | .error r => ⟨[], r⟩
      | .ok (format, size) => vanityRender env vanity c format size := rfl

theorem sizeMessage_eq : sizeMessage = "size must be an integer between 100 and 1000" := by
  decide

theorem checkedOptions_svg (env : Env) (c : Context)
    (h : env.ToLower (c.Query "format") = "" ∨ env.ToLower (c.Query "format") = "svg") :
    checkedOptions env c = .ok ("svg", 0) := by
  simp [checkedOptions, h]

theorem checkedOptions_unsupported (env : Env) (c : Context)
    (h1 : env.ToLower (c.Query "format") ≠ "") (h2 : env.ToLower (c.Query "format") ≠ "svg")
    (h3 : env.ToLower (c.Query "format") ≠ "png") (h4 : env.ToLower (c.Query "format") ≠ "webp") :
    checkedOptions env c = .error (.string 400 formatMessage) := by
  simp [checkedOptions, h1, h2, h3, h4]

theorem raster_ne (f : String) (h : f = "png" ∨ f = "webp") : f ≠ "" ∧ f ≠ "svg" := by
  rcases h with h | h <;> subst h <;> decide

theorem checkedOptions_default (env : Env) (c : Context)
    (h : env.ToLower (c.Query "format") = "png" ∨ env.ToLower (c.Query "format") = "webp")
    (hs : c.Query "size" = "") :
    checkedOptions env c = .ok (env.ToLower (c.Query "format"), 128) := by
  have hne := raster_ne _ h
  have h' : ¬ (env.ToLower (c.Query "format") ≠ "png" ∧ env.ToLower (c.Query "format") ≠ "webp") := by
    rcases h with h | h <;> simp [h]
  simp only [checkedOptions]
  rw [if_neg (by simp [hne.1, hne.2]), if_neg h', if_pos hs]
  rfl

theorem checkedOptions_bad (env : Env) (c : Context)
    (h : env.ToLower (c.Query "format") = "png" ∨ env.ToLower (c.Query "format") = "webp")
    (hs : c.Query "size" ≠ "") (hb : badSize (c.Query "size") = true) :
    checkedOptions env c = .error (.string 400 sizeMessage) := by
  have hne := raster_ne _ h
  have h' : ¬ (env.ToLower (c.Query "format") ≠ "png" ∧ env.ToLower (c.Query "format") ≠ "webp") := by
    rcases h with h | h <;> simp [h]
  simp only [checkedOptions]
  rw [if_neg (by simp [hne.1, hne.2]), if_neg h', if_neg hs]
  unfold badSize at hb
  cases hA : Atoi (c.Query "size") with
  | none => rfl
  | some v =>
    rw [hA] at hb
    have hv : v < 100 ∨ 1000 < v := by simpa using hb
    simp only [minConvertedSize, maxConvertedSize]
    rw [if_pos (by omega)]

theorem checkedOptions_good (env : Env) (c : Context)
    (h : env.ToLower (c.Query "format") = "png" ∨ env.ToLower (c.Query "format") = "webp")
    (hs : c.Query "size" ≠ "") (hb : badSize (c.Query "size") = false) :
    ∃ v : Int, Atoi (c.Query "size") = some v ∧ 100 ≤ v ∧ v ≤ 1000 ∧
      checkedOptions env c = .ok (env.ToLower (c.Query "format"), v) := by
  have hne := raster_ne _ h
  have h' : ¬ (env.ToLower (c.Query "format") ≠ "png" ∧ env.ToLower (c.Query "format") ≠ "webp") := by
    rcases h with h | h <;> simp [h]
  unfold badSize at hb
  cases hA : Atoi (c.Query "size") with
  | none => rw [hA] at hb; simp at hb
  | some v =>
    rw [hA] at hb
    have hv : ¬ (v < 100 ∨ 1000 < v) := by simpa using hb
    refine ⟨v, rfl, by omega, by omega, ?_⟩
    simp only [checkedOptions]
    rw [if_neg (by simp [hne.1, hne.2]), if_neg h', if_neg hs, hA]
    simp only [minConvertedSize, maxConvertedSize]
    rw [if_neg (by omega)]

theorem uint_of_range (v : Int) (h0 : 0 ≤ v) (h1 : v ≤ 1000) : (uint v : Int) = v := by
  unfold uint
  omega

/-! ## The rendering parts -/

theorem iconRender_code (env : Env) (hash : String) (c : Context) (format : String)
    (size : Int) : (iconRender env hash c format size).resp.code ≠ 400 := by
  unfold iconRender
  simp only []
  split
  · simp [Response.code]
  · split
    · simp [Response.code]
    · split_ifs
      · split <;> simp [Response.code]
      · simp [Response.code]

theorem vanityRender_code (env : Env) (vanity : Asset) (c : Context) (format : String)
    (size : Int) : (vanityRender env vanity c format size).resp.code ≠ 400 := by
  unfold vanityRender
  simp only []
  split_ifs
  · split <;> simp [Response.code]
  · simp [Response.code]

theorem iconRender_head (env : Env) (hash : String) (c : Context) (format : String)
    (size : Int) :
    (iconRender env hash c format size).calls.head?
      = some (Call.getAccessoriesForHash hash (backgroundFlag env c)) := by
  unfold iconRender backgroundFlag
  simp only []
  split
  · rfl
  · split
    · rfl
    · split_ifs
      · split <;> rfl
      · rfl

theorem iconRender_convert (env : Env) (hash : String) (c : Context) (format : String)
    (size : Int) (svg : Bytes) (f : String) (n : Nat)
    (h : Call.convertSvgToBinary svg f n ∈ (iconRender env hash c format size).calls) :
    format ≠ "svg" ∧ f = format ∧ n = uint size := by
  unfold iconRender at h
  simp only [] at h
  split at h
  · simp at h
  · split at h
    · simp at h
    · split_ifs at h with hf
      · split at h <;> simp at h <;> exact ⟨hf, h.2.1, h.2.2⟩
      · simp at h

theorem iconRender_reaches (env : Env) (hash : String) (c : Context) (format : String)
    (size : Int) (hf : format ≠ "svg")
    (h1 : (env.GetAccessoriesForHash hash (backgroundFlag env c)).2 = none)
    (h2 : (env.CombineSVG (env.GetAccessoriesForHash hash (backgroundFlag env c)).1).2 = none) :
    Call.convertSvgToBinary
        (env.CombineSVG (env.GetAccessoriesForHash hash (backgroundFlag env c)).1).1
        format (uint size) ∈ (iconRender env hash c format size).calls := by
  unfold backgroundFlag at h1 h2
  unfold iconRender backgroundFlag
  simp only [h1, h2, hf]
  simp only [ne_eq, not_false_eq_true, if_true]
  cases (env.ConvertSvgToBinary
    (env.CombineSVG (env.GetAccessoriesForHash hash
      (decide (env.ToLower (c.Query "background") = "true"))).1).1 format (uint size)).2 <;>
    simp [hf]

theorem iconRender_data (env : Env) (hash : String) (c : Context) (format : String)
    (size : Int) (code : Nat) (ct : String) (body : Bytes)
    (h : (iconRender env hash c format size).resp = .data code ct body) :
    code = 200 ∧ ct = contentType format := by
  unfold iconRender at h
  simp only [] at h
  split at h
  · simp at h
  · split at h
    · simp at h
    · split_ifs at h with hf
      · split at h
        · simp at h
        · simp at h
          simp [contentType, hf, h.1, ← h.2.1]
      · simp at h
        have hf' : format = "svg" := by simpa using hf
        simp [contentType, hf', h.1, ← h.2.1]

theorem vanityRender_calls (env : Env) (vanity : Asset) (c : Context) (format : String)
    (size : Int) :
    (vanityRender env vanity c format size).calls =
      if format ≠ "svg" then
        [Call.pureSVG vanity (backgroundFlag env c),
          Call.convertSvgToBinary (env.PureSVG vanity (backgroundFlag env c)).1 format
            (uint size)]
      else [Call.pureSVG vanity (backgroundFlag env c)] := by
  unfold vanityRender backgroundFlag
  simp only []
  split_ifs
  · split <;> rfl
  · rfl

theorem vanityRender_data (env : Env) (vanity : Asset) (c : Context) (format : String)
    (size : Int) (code : Nat) (ct : String) (body : Bytes)
    (h : (vanityRender env vanity c format size).resp = .data code ct body) :
    code = 200 ∧ ct = contentType format := by
  unfold vanityRender at h
  simp only [] at h
  split_ifs at h with hf
  · split at h
    · simp at h
    · simp at h
      simp [contentType, hf, h.1, ← h.2.1]
  · simp at h
    have hf' : format = "svg" := by simpa using hf
    simp [contentType, hf', h.1, ← h.2.1]

theorem iconRender_congr (env : Env) (hash : String) (c c' : Context) (format : String)
    (size : Int) (h : c'.Query "background" = c.Query "background") :
    iconRender env hash c' format size = iconRender env hash c format size := by
  unfold iconRender
  rw [h]

theorem vanityRender_congr (env : Env) (vanity : Asset) (c c' : Context) (format : String)
    (size : Int) (h : c'.Query "background" = c.Query "background") :
    vanityRender env vanity c' format size = vanityRender env vanity c format size := by
  unfold vanityRender
  rw [h]

/-! ## Claims on the request options -/

/-- C1: for a request whose lower-cased format is png or webp and whose size
text is not empty, `generateIcon` and `generateVanityAsset` answer 400 exactly
when the size does not parse as an integer or the parsed value is below 100 or
above 1000, and then no call at all is made (the converter is never reached);
when the request is accepted every call of `ConvertSvgToBinary` receives exactly
the parsed value, the vanity path always makes that call, and the digest path
makes it once selection and composition succeed. -/
theorem raster_size_checked_not_clamped (env : Env) (hash : String) (vanity : Asset)
    (c : Context)
    (hfmt : env.ToLower (c.Query "format") = "png" ∨ env.ToLower (c.Query "format") = "webp")
    (hsize : c.Query "size" ≠ "") :
    ((generateIcon env hash c).resp.code = 400 ↔ badSize (c.Query "size") = true) ∧
    ((generateVanityAsset env vanity c).resp.code = 400 ↔ badSize (c.Query "size") = true) ∧
    (badSize (c.Query "size") = true →
      generateIcon env hash c
        = ⟨[], .string 400 "size must be an integer between 100 and 1000"⟩ ∧
      generateVanityAsset env vanity c
        = ⟨[], .string 400 "size must be an integer between 100 and 1000"⟩) ∧
    (badSize (c.Query "size") = false →
      ∃ v : Int, Atoi (c.Query "size") = some v ∧ 100 ≤ v ∧ v ≤ 1000 ∧
        (∀ svg f n, Call.convertSvgToBinary svg f n ∈ (generateIcon env hash c).calls →
          (n : Int) = v) ∧
        (∀ svg f n, Call.convertSvgToBinary svg f n ∈ (generateVanityAsset env vanity c).calls →
          (n : Int) = v) ∧
        Call.convertSvgToBinary (env.PureSVG vanity (backgroundFlag env c)).1
          (env.ToLower (c.Query "format")) v.toNat ∈ (generateVanityAsset env vanity c).calls ∧
        ((env.GetAccessoriesForHash hash (backgroundFlag env c)).2 = none →
          (env.CombineSVG (env.GetAccessoriesForHash hash (backgroundFlag env c)).1).2 = none →
          Call.convertSvgToBinary
            (env.CombineSVG (env.GetAccessoriesForHash hash (backgroundFlag env c)).1).1
            (env.ToLower (c.Query "format")) v.toNat ∈ (generateIcon env hash c).calls)) := by
  have hbad : badSize (c.Query "size") = true →
      generateIcon env hash c
        = ⟨[], .string 400 "size must be an integer between 100 and 1000"⟩ ∧
      generateVanityAsset env vanity c
        = ⟨[], .string 400 "size must be an integer between 100 and 1000"⟩ := by
    intro hb
    rw [generateIcon_eq, generateVanityAsset_eq, checkedOptions_bad env c hfmt hsize hb,
      sizeMessage_eq]
    exact ⟨rfl, rfl⟩
  have hgood : badSize (c.Query "size") = false →
      ∃ v : Int, Atoi (c.Query "size") = some v ∧ 100 ≤ v ∧ v ≤ 1000 ∧
        generateIcon env hash c = iconRender env hash c (env.ToLower (c.Query "format")) v ∧
        generateVanityAsset env vanity c
          = vanityRender env vanity c (env.ToLower (c.Query "format")) v := by
    intro hb
    obtain ⟨v, hA, h1, h2, hok⟩ := checkedOptions_good env c hfmt hsize hb
    refine ⟨v, hA, h1, h2, ?_, ?_⟩
    · rw [generateIcon_eq, hok]
    · rw [generateVanityAsset_eq, hok]
  refine ⟨?_, ?_, hbad, ?_⟩
  · constructor
    · intro h400
      by_contra hb
      have hb' : badSize (c.Query "size") = false := by simpa using hb
      obtain ⟨v, _, _, _, hi, _⟩ := hgood hb'
      rw [hi] at h400
      exact iconRender_code _ _ _ _ _ h400
    · intro hb
      rw [(hbad hb).1]
      rfl
  · constructor
    · intro h400
      by_contra hb
      have hb' : badSize (c.Query "size") = false := by simpa using hb
      obtain ⟨v, _, _, _, _, hv⟩ := hgood hb'
      rw [hv] at h400
      exact vanityRender_code _ _ _ _ _ h400
    · intro hb
      rw [(hbad hb).2]
      rfl
  · intro hb
    obtain ⟨v, hA, h1, h2, hi, hv⟩ := hgood hb
    have hu : (uint v : Int) = v := uint_of_range v (by omega) h2
    have hu' : uint v = v.toNat := by omega
    have hne := (raster_ne _ hfmt).2
    refine ⟨v, hA, h1, h2, ?_, ?_, ?_, ?_⟩
    · intro svg f n hmem
      rw [hi] at hmem
      rw [(iconRender_convert _ _ _ _ _ _ _ _ hmem).2.2]
      exact hu
    · intro svg f n hmem
      rw [hv, vanityRender_calls, if_pos hne] at hmem
      simp at hmem
      rw [hmem.2.2]
      exact hu
    · rw [hv, vanityRender_calls, if_pos hne, hu']
      simp
    · intro e1 e2
      rw [hi, ← hu']
      exact iconRender_reaches env hash c _ v hne e1 e2

/-- C1 at a concrete request, format `PNG` and size `256`: the hypotheses hold,
the size is accepted and the vanity path hands 256 to the converter. -/
theorem raster_size_checked_not_clamped_witness :
    (sampleEnv.ToLower ((sampleContext addrA "PNG" "256").Query "format") = "png" ∨
      sampleEnv.ToLower ((sampleContext addrA "PNG" "256").Query "format") = "webp") ∧
    (sampleContext addrA "PNG" "256").Query "size" ≠ "" ∧
    badSize ((sampleContext addrA "PNG" "256").Query "size") = false ∧
    ((generateIcon sampleEnv "h" (sampleContext addrA "PNG" "256")).resp.code = 400 ↔
      badSize ((sampleContext addrA "PNG" "256").Query "size") = true) ∧
    (∀ svg f n, Call.convertSvgToBinary svg f n ∈
        (generateVanityAsset sampleEnv ⟨"vanity.svg"⟩ (sampleContext addrA "PNG" "256")).calls →
      n = 256) :=
  ⟨by decide, by decide, by decide,
    (raster_size_checked_not_clamped sampleEnv "h" ⟨"vanity.svg"⟩
      (sampleContext addrA "PNG" "256") (by decide) (by decide)).1,
    by
      obtain ⟨v, hA, _, _, _, hv, _⟩ :=
        (raster_size_checked_not_clamped sampleEnv "h" ⟨"vanity.svg"⟩
          (sampleContext addrA "PNG" "256") (by decide) (by decide)).2.2.2 (by decide)
      have h256 : Atoi ((sampleContext addrA "PNG" "256").Query "size") = some 256 := by decide
      rw [h256] at hA
      have hv256 : v = 256 := by injection hA with hA; exact hA.symm
      intro svg f n hmem
      have := hv svg f n hmem
      omega⟩

/-- C2: for a request whose lower-cased format is png or webp and whose size is
absent or empty, neither handler rejects, every call of the converter gets size
128, the vanity path always makes that call, and the digest path makes it once
selection and composition succeed; for a request whose lower-cased format is
svg or empty neither handler rejects or calls the converter, and the outcome is
the same for every value of the size parameter. -/
theorem default_size_and_svg_ignores_size (env : Env) (hash : String) (vanity : Asset)
    (c : Context) :
    ((env.ToLower (c.Query "format") = "png" ∨ env.ToLower (c.Query "format") = "webp") →
      c.Query "size" = "" →
      (generateIcon env hash c).resp.code ≠ 400 ∧
      (generateVanityAsset env vanity c).resp.code ≠ 400 ∧
      (∀ svg f n, Call.convertSvgToBinary svg f n ∈
          (generateIcon env hash c).calls ++ (generateVanityAsset env vanity c).calls →
        n = 128) ∧
      Call.convertSvgToBinary (env.PureSVG vanity (backgroundFlag env c)).1
        (env.ToLower (c.Query "format")) 128 ∈ (generateVanityAsset env vanity c).calls ∧
      ((env.GetAccessoriesForHash hash (backgroundFlag env c)).2 = none →
        (env.CombineSVG (env.GetAccessoriesForHash hash (backgroundFlag env c)).1).2 = none →
        Call.convertSvgToBinary
          (env.CombineSVG (env.GetAccessoriesForHash hash (backgroundFlag env c)).1).1
          (env.ToLower (c.Query "format")) 128 ∈ (generateIcon env hash c).calls)) ∧
    ((env.ToLower (c.Query "format") = "" ∨ env.ToLower (c.Query "format") = "svg") →
      (generateIcon env hash c).resp.code ≠ 400 ∧
      (generateVanityAsset env vanity c).resp.code ≠ 400 ∧
      (∀ svg f n, Call.convertSvgToBinary svg f n ∉
          (generateIcon env hash c).calls ++ (generateVanityAsset env vanity c).calls) ∧
      ∀ c' : Context, (∀ k, k ≠ "size" → c'.Query k = c.Query k) →
        generateIcon env hash c' = generateIcon env hash c ∧
        generateVanityAsset env vanity c' = generateVanityAsset env vanity c) := by
  constructor
  · intro hfmt hs
    have hok := checkedOptions_default env c hfmt hs
    have hi : generateIcon env hash c
        = iconRender env hash c (env.ToLower (c.Query "format")) 128 := by
      rw [generateIcon_eq, hok]
    have hv : generateVanityAsset env vanity c
        = vanityRender env vanity c (env.ToLower (c.Query "format")) 128 := by
      rw [generateVanityAsset_eq, hok]
    have hne := (raster_ne _ hfmt).2
    have hu : uint 128 = 128 := by decide
    refine ⟨?_, ?_, ?_, ?_, ?_⟩
    · rw [hi]; exact iconRender_code _ _ _ _ _
    · rw [hv]; exact vanityRender_code _ _ _ _ _
    · intro svg f n hmem
      rw [List.mem_append] at hmem
      rcases hmem with hmem | hmem
      · rw [hi] at hmem
        rw [(iconRender_convert _ _ _ _ _ _ _ _ hmem).2.2, hu]
      · rw [hv, vanityRender_calls, if_pos hne] at hmem
        simp at hmem
        rw [hmem.2.2, hu]
    · rw [hv, vanityRender_calls, if_pos hne, hu]
      simp
    · intro e1 e2
      rw [hi, ← hu]
      exact iconRender_reaches env hash c _ 128 hne e1 e2
  · intro hfmt
    have hok := checkedOptions_svg env c hfmt
    have hi : generateIcon env hash c = iconRender env hash c "svg" 0 := by
      rw [generateIcon_eq, hok]
    have hv : generateVanityAsset env vanity c = vanityRender env vanity c "svg" 0 := by
      rw [generateVanityAsset_eq, hok]
    refine ⟨?_, ?_, ?_, ?_⟩
    · rw [hi]; exact iconRender_code _ _ _ _ _
    · rw [hv]; exact vanityRender_code _ _ _ _ _
    · intro svg f n hmem
      rw [List.mem_append] at hmem
      rcases hmem with hmem | hmem
      · rw [hi] at hmem
        exact (iconRender_convert _ _ _ _ _ _ _ _ hmem).1 rfl
      · rw [hv, vanityRender_calls] at hmem
        simp at hmem
    · intro c' hq
      have hf' : c'.Query "format" = c.Query "format" := hq "format" (by decide)
      have hb' : c'.Query "background" = c.Query "background" := hq "background" (by decide)
      have hok' := checkedOptions_svg env c' (by rw [hf']; exact hfmt)
      constructor
      · rw [generateIcon_eq, hok', hi]
        exact iconRender_congr env hash c c' "svg" 0 hb'
      · rw [generateVanityAsset_eq, hok', hv]
        exact vanityRender_congr env vanity c c' "svg" 0 hb'

/-- C2 at concrete requests: format `webp` without a size reaches the converter
with 128 on the vanity path, and an svg request with size `5000` is answered
like the one without a size. -/
theorem default_size_and_svg_ignores_size_witness :
    Call.convertSvgToBinary [60, 118] "webp" 128 ∈
      (generateVanityAsset sampleEnv ⟨"vanity.svg"⟩ (sampleContext addrA "WebP" "")).calls ∧
    generateIcon sampleEnv "h" (sampleContext addrA "svg" "5000")
      = generateIcon sampleEnv "h" (sampleContext addrA "svg" "") :=
  ⟨((default_size_and_svg_ignores_size sampleEnv "h" ⟨"vanity.svg"⟩
      (sampleContext addrA "WebP" "")).1 (by decide) (by decide)).2.2.2.1,
    (((default_size_and_svg_ignores_size sampleEnv "h" ⟨"vanity.svg"⟩
      (sampleContext addrA "svg" "")).2 (by decide)).2.2.2
        (sampleContext addrA "svg" "5000")
        (by
          intro k hk
          simp only [sampleContext]
          by_cases h1 : k = "format"
          · simp [h1]
          · simp [h1, hk])).1⟩

/-- C3, as stated, fails: a request for svg with the out-of-range size `5000` is
not rejected; selection and composition run and the answer is 200. -/
theorem svg_request_with_out_of_range_size_is_rendered :
    Atoi ((sampleContext addrA "svg" "5000").Query "size") = some 5000 ∧
    generateIcon sampleEnv "h" (sampleContext addrA "svg" "5000")
      = ⟨[Call.getAccessoriesForHash "h" false, Call.combineSVG (sampleAccessories "h")],
          .data 200 "image/svg+xml; charset=utf-8" [60, 115]⟩ := by
  decide

/-- C3, amended: in `generateIcon` an unsupported format, or on a png/webp
request a non-empty size that is not an integer between 100 and 1000, is
answered with 400 before any call is made; a format that lower-cases to svg or
to the empty text is not rejected whatever the size, and png/webp with an absent
or valid size is not rejected. -/
theorem icon_validation_before_rendering (env : Env) (hash : String) (c : Context) :
    (env.ToLower (c.Query "format") ∉ ["", "svg", "png", "webp"] →
      generateIcon env hash c
        = ⟨[], .string 400 "Valid formats are \x27svg\x27, \x27png\x27, or \x27webp\x27"⟩) ∧
    ((env.ToLower (c.Query "format") = "png" ∨ env.ToLower (c.Query "format") = "webp") →
      c.Query "size" ≠ "" → badSize (c.Query "size") = true →
      generateIcon env hash c
        = ⟨[], .string 400 "size must be an integer between 100 and 1000"⟩) ∧
    ((env.ToLower (c.Query "format") = "" ∨ env.ToLower (c.Query "format") = "svg") →
      (generateIcon env hash c).resp.code ≠ 400) ∧
    ((env.ToLower (c.Query "format") = "png" ∨ env.ToLower (c.Query "format") = "webp") →
      (c.Query "size" = "" ∨ badSize (c.Query "size") = false) →
      (generateIcon env hash c).resp.code ≠ 400) := by
  refine ⟨?_, ?_, ?_, ?_⟩
  · intro hnot
    simp only [List.mem_cons, List.mem_singleton, List.not_mem_nil, or_false, not_or] at hnot
    rw [generateIcon_eq, checkedOptions_unsupported env c hnot.1 hnot.2.1 hnot.2.2.1 hnot.2.2.2]
    rfl
  · intro hfmt hs hb
    rw [generateIcon_eq, checkedOptions_bad env c hfmt hs hb, sizeMessage_eq]
  · intro hfmt
    rw [generateIcon_eq, checkedOptions_svg env c hfmt]
    exact iconRender_code _ _ _ _ _
  · intro hfmt hs
    by_cases he : c.Query "size" = ""
    · rw [generateIcon_eq, checkedOptions_default env c hfmt he]
      exact iconRender_code _ _ _ _ _
    · have hb : badSize (c.Query "size") = false := by
        rcases hs with hs | hs
        · exact absurd hs he
        · exact hs
      obtain ⟨v, _, _, _, hok⟩ := checkedOptions_good env c hfmt he hb
      rw [generateIcon_eq, hok]
      exact iconRender_code _ _ _ _ _

/-- C3, amended, at concrete requests: format `gif` is rejected before any call,
and so is size `5000` on a png request. -/
theorem icon_validation_before_rendering_witness :
    generateIcon sampleEnv "h" (sampleContext addrA "gif" "")
      = ⟨[], .string 400 "Valid formats are \x27svg\x27, \x27png\x27, or \x27webp\x27"⟩ ∧
    generateIcon sampleEnv "h" (sampleContext addrA "png" "5000")
      = ⟨[], .string 400 "size must be an integer between 100 and 1000"⟩ :=
  ⟨(icon_validation_before_rendering sampleEnv "h" (sampleContext addrA "gif" "")).1
      (by decide),
    (icon_validation_before_rendering sampleEnv "h" (sampleContext addrA "png" "5000")).2.1
      (by decide) (by decide) (by decide)⟩

/-! ## The two handlers against the interface description -/

theorem checkedOptions_refines (env : Env) (c : Context) :
    (∀ msg, resolveOptions env c = .error msg →
      checkedOptions env c = .error (.string 400 msg)) ∧
    (∀ o, resolveOptions env c = .ok o →
      ∃ size : Int, checkedOptions env c = .ok (o.format, size) ∧
        (o.format = "svg" ∨ uint size = o.size) ∧
        o.withBackground = backgroundFlag env c ∧
        (o.format = "svg" ∨ o.format = "png" ∨ o.format = "webp")) := by
  by_cases hsvg : env.ToLower (c.Query "format") = "" ∨ env.ToLower (c.Query "format") = "svg"
  · have hr : resolveOptions env c = .ok ⟨"svg", 0, backgroundFlag env c⟩ := by
      simp only [resolveOptions, backgroundFlag]
      rw [if_pos hsvg]
    rw [hr, checkedOptions_svg env c hsvg]
    refine ⟨fun msg h => (by cases h), fun o h => ?_⟩
    injection h with h
    subst h
    exact ⟨0, rfl, Or.inl rfl, rfl, Or.inl rfl⟩
  · by_cases hras : env.ToLower (c.Query "format") = "png" ∨ env.ToLower (c.Query "format") = "webp"
    · by_cases hs : c.Query "size" = ""
      · have hr : resolveOptions env c
            = .ok ⟨env.ToLower (c.Query "format"), 128, backgroundFlag env c⟩ := by
          simp only [resolveOptions, backgroundFlag]
          rw [if_neg hsvg, if_pos hras, if_pos hs]
        rw [hr, checkedOptions_default env c hras hs]
        refine ⟨fun msg h => (by cases h), fun o h => ?_⟩
        injection h with h
        subst h
        have hu : uint 128 = 128 := by decide
        exact ⟨128, rfl, Or.inr hu, rfl, Or.inr hras⟩
      · cases hb : badSize (c.Query "size") with
        | true =>
          have hr : resolveOptions env c
              = .error "size must be an integer between 100 and 1000" := by
            simp only [resolveOptions]
            rw [if_neg hsvg, if_pos hras, if_neg hs]
            unfold badSize at hb
            cases hA : Atoi (c.Query "size") with
            | none => rfl
            | some v =>
              rw [hA] at hb
              have hv : v < 100 ∨ 1000 < v := by simpa using hb
              simp only []
              rw [if_neg (by omega)]
          rw [hr, checkedOptions_bad env c hras hs hb, sizeMessage_eq]
          refine ⟨fun msg h => ?_, fun o h => by cases h⟩
          injection h with h
          subst h
          rfl
        | false =>
          obtain ⟨v, hA, h1, h2, hok⟩ := checkedOptions_good env c hras hs hb
          have hr : resolveOptions env c
              = .ok ⟨env.ToLower (c.Query "format"), v.toNat, backgroundFlag env c⟩ := by
            simp only [resolveOptions, backgroundFlag]
            rw [if_neg hsvg, if_pos hras, if_neg hs, hA]
            simp only []
            rw [if_pos ⟨h1, h2⟩]
          rw [hr, hok]
          refine ⟨fun msg h => (by cases h), fun o h => ?_⟩
          injection h with h
          subst h
          have hu : (uint v : Int) = v := uint_of_range v (by omega) h2
          have hu' : uint v = v.toNat := by omega
          exact ⟨v, rfl, Or.inr hu', rfl, Or.inr hras⟩
    · have hr : resolveOptions env c
          = .error "Valid formats are \x27svg\x27, \x27png\x27, or \x27webp\x27" := by
        simp only [resolveOptions]
        rw [if_neg hsvg, if_neg hras]
      have h1 : env.ToLower (c.Query "format") ≠ "" := fun h => hsvg (Or.inl h)
      have h2 : env.ToLower (c.Query "format") ≠ "svg" := fun h => hsvg (Or.inr h)
      have h3 : env.ToLower (c.Query "format") ≠ "png" := fun h => hras (Or.inl h)
      have h4 : env.ToLower (c.Query "format") ≠ "webp" := fun h => hras (Or.inr h)
      rw [hr, checkedOptions_unsupported env c h1 h2 h3 h4]
      refine ⟨fun msg h => ?_, fun o h => by cases h⟩
      injection h with h
      subst h
      rfl

/-- C10: `generateVanityAsset` and `generateIcon` treat the request options
alike, and as the interface describes them: both reject with the same 400 text
exactly when the options do not resolve, and otherwise neither rejects, both
pass the resolved background flag to their first rendering call, every call of
the converter in either gets the resolved format and size, and a data answer of
either carries the content type of the resolved format. -/
theorem vanity_honors_options_like_icon (env : Env) (hash : String) (vanity : Asset)
    (c : Context) :
    (∀ msg, resolveOptions env c = .error msg →
      generateIcon env hash c = ⟨[], .string 400 msg⟩ ∧
      generateVanityAsset env vanity c = ⟨[], .string 400 msg⟩) ∧
    (∀ o, resolveOptions env c = .ok o →
      (generateIcon env hash c).resp.code ≠ 400 ∧
      (generateVanityAsset env vanity c).resp.code ≠ 400 ∧
      (generateIcon env hash c).calls.head?
        = some (Call.getAccessoriesForHash hash o.withBackground) ∧
      (generateVanityAsset env vanity c).calls.head?
        = some (Call.pureSVG vanity o.withBackground) ∧
      (∀ svg f n, Call.convertSvgToBinary svg f n ∈
          (generateIcon env hash c).calls ++ (generateVanityAsset env vanity c).calls →
        f = o.format ∧ n = o.size) ∧
      (∀ code ct body, (generateIcon env hash c).resp = .data code ct body ∨
          (generateVanityAsset env vanity c).resp = .data code ct body →
        ct = contentType o.format)) ∧
    ((generateIcon env hash c).resp.code = 400 ↔
      (generateVanityAsset env vanity c).resp.code = 400) := by
  obtain ⟨herr, hok⟩ := checkedOptions_refines env c
  have hE : ∀ msg, resolveOptions env c = .error msg →
      generateIcon env hash c = ⟨[], .string 400 msg⟩ ∧
      generateVanityAsset env vanity c = ⟨[], .string 400 msg⟩ := by
    intro msg h
    rw [generateIcon_eq, generateVanityAsset_eq, herr msg h]
    exact ⟨rfl, rfl⟩
  have hO : ∀ o, resolveOptions env c = .ok o →
      ∃ size : Int, generateIcon env hash c = iconRender env hash c o.format size ∧
        generateVanityAsset env vanity c = vanityRender env vanity c o.format size ∧
        (o.format = "svg" ∨ uint size = o.size) ∧
        o.withBackground = backgroundFlag env c := by
    intro o h
    obtain ⟨size, hc, hs, hb, _⟩ := hok o h
    refine ⟨size, ?_, ?_, hs, hb⟩
    · rw [generateIcon_eq, hc]
    · rw [generateVanityAsset_eq, hc]
  refine ⟨hE, ?_, ?_⟩
  · intro o h
    obtain ⟨size, hi, hv, hs, hb⟩ := hO o h
    refine ⟨?_, ?_, ?_, ?_, ?_, ?_⟩
    · rw [hi]; exact iconRender_code _ _ _ _ _
    · rw [hv]; exact vanityRender_code _ _ _ _ _
    · rw [hi, hb]; exact iconRender_head _ _ _ _ _
    · rw [hv, hb, vanityRender_calls]
      split_ifs <;> rfl
    · intro svg f n hmem
      rw [List.mem_append] at hmem
      rcases hmem with hmem | hmem
      · rw [hi] at hmem
        obtain ⟨hne, hf, hn⟩ := iconRender_convert _ _ _ _ _ _ _ _ hmem
        rcases hs with hs | hs
        · exact absurd hs hne
        · exact ⟨hf, by rw [hn, hs]⟩
      · rw [hv, vanityRender_calls] at hmem
        split_ifs at hmem with hne
        · simp at hmem
          rcases hs with hs | hs
          · exact absurd hs hne
          · exact ⟨hmem.2.1, by rw [hmem.2.2, hs]⟩
        · simp at hmem
    · intro code ct body hd
      rcases hd with hd | hd
      · rw [hi] at hd
        exact (iconRender_data _ _ _ _ _ _ _ _ hd).2
      · rw [hv] at hd
        exact (vanityRender_data _ _ _ _ _ _ _ _ hd).2
  · cases hr : resolveOptions env c with
    | error msg =>
      rw [(hE msg hr).1, (hE msg hr).2]
    | ok o =>
      obtain ⟨size, hi, hv, _, _⟩ := hO o hr
      rw [hi, hv]
      constructor
      · intro h; exact absurd h (iconRender_code _ _ _ _ _)
      · intro h; exact absurd h (vanityRender_code _ _ _ _ _)

/-- C10 at a concrete request, format `WEBP` with size `300` and no
background value: the options resolve to webp, 300, no background, and the vanity
path converts with them. -/
theorem vanity_honors_options_like_icon_witness :
    resolveOptions sampleEnv (sampleContext addrB "WEBP" "300") = .ok ⟨"webp", 300, false⟩ ∧
    (generateVanityAsset sampleEnv ⟨"vanity.svg"⟩ (sampleContext addrB "WEBP" "300")).calls.head?
      = some (Call.pureSVG ⟨"vanity.svg"⟩ false) ∧
    (generateIcon sampleEnv "h" (sampleContext addrB "WEBP" "300")).calls.head?
      = some (Call.getAccessoriesForHash "h" false) :=
  ⟨rfl,
    ((vanity_honors_options_like_icon sampleEnv "h" ⟨"vanity.svg"⟩
      (sampleContext addrB "WEBP" "300")).2.1 ⟨"webp", 300, false⟩ rfl).2.2.2.1,
    ((vanity_honors_options_like_icon sampleEnv "h" ⟨"vanity.svg"⟩
      (sampleContext addrB "WEBP" "300")).2.1 ⟨"webp", 300, false⟩ rfl).2.2.1⟩

/-! ## Vanity precedence -/

/-- C4: for a valid address with a vanity asset, `GetAnimal` answers exactly as
`generateVanityAsset` does on the vanity asset, so the outcome is the same for
every seed and for every request with the same address and query values, it
does not change when the digest function or the digest-driven selection is
replaced, and no call computes or consults the digest. -/
theorem vanity_precedence (env : Env) (mc : AnimalController) (c : Context) (vanity : Asset)
    (hvalid : ValidateAddress env (c.Param "address") = true)
    (hvan : env.GetVanityAsset (c.Param "address") = some vanity) :
    GetAnimal env mc c = generateVanityAsset env vanity c ∧
    (∀ (mc' : AnimalController) (c' : Context),
      c'.Param "address" = c.Param "address" → (∀ k, c'.Query k = c.Query k) →
      GetAnimal env mc' c' = GetAnimal env mc c) ∧
    (∀ (sha : String → String → String) (sel : String → Bool → Accessories × GoError),
      GetAnimal { env with Sha256 := sha, GetAccessoriesForHash := sel } mc c
        = GetAnimal env mc c) ∧
    (∀ call ∈ (GetAnimal env mc c).calls, call.usesDigest = false) := by
  have hmain : ∀ (e : Env) (m : AnimalController) (d : Context),
      ValidateAddress e (d.Param "address") = true →
      e.GetVanityAsset (d.Param "address") = some vanity →
      GetAnimal e m d = generateVanityAsset e vanity d := by
    intro e m d h1 h2
    simp only [GetAnimal, h1, h2]
    rfl
  refine ⟨hmain env mc c hvalid hvan, ?_, ?_, ?_⟩
  · intro mc' c' hp hq
    have hq' : c'.Query = c.Query := funext hq
    rw [hmain env mc c hvalid hvan, hmain env mc' c' (by rw [hp]; exact hvalid)
      (by rw [hp]; exact hvan)]
    simp only [generateVanityAsset, hq']
  · intro sha sel
    rw [hmain env mc c hvalid hvan,
      hmain { env with Sha256 := sha, GetAccessoriesForHash := sel } mc c hvalid hvan]
    rfl
  · intro call hmem
    rw [hmain env mc c hvalid hvan, generateVanityAsset_eq] at hmem
    cases hc : checkedOptions env c with
    | error r =>
      rw [hc] at hmem
      simp at hmem
    | ok p =>
      obtain ⟨f, sz⟩ := p
      rw [hc] at hmem
      simp only [vanityRender_calls] at hmem
      split_ifs at hmem
      · simp at hmem
        rcases hmem with h | h
        · subst h; rfl
        · subst h; rfl
      · simp at hmem
        subst hmem
        rfl

/-- C4 at a concrete request: `addrB` is valid and in the vanity table, and
two seeds give the same outcome. -/
theorem vanity_precedence_witness :
    ValidateAddress sampleEnv ((sampleContext addrB "png" "200").Param "address") = true ∧
    sampleEnv.GetVanityAsset ((sampleContext addrB "png" "200").Param "address")
      = some ⟨"vanity.svg"⟩ ∧
    GetAnimal sampleEnv ⟨"seed one"⟩ (sampleContext addrB "png" "200")
      = GetAnimal sampleEnv ⟨"seed two"⟩ (sampleContext addrB "png" "200") :=
  ⟨by decide, by decide,
    ((vanity_precedence sampleEnv ⟨"seed two"⟩ (sampleContext addrB "png" "200")
      ⟨"vanity.svg"⟩ (by decide) (by decide)).2.1 ⟨"seed one"⟩
      (sampleContext addrB "png" "200") rfl (fun _ => rfl))⟩

/-! ## Rendering failures -/

/-- In `generateIcon` every rendering error is answered with a 500 text. -/
theorem iconRender_failure (env : Env) (hash : String) (c : Context) (format : String)
    (size : Int)
    (h : (env.GetAccessoriesForHash hash (backgroundFlag env c)).2 ≠ none ∨
      (env.CombineSVG (env.GetAccessoriesForHash hash (backgroundFlag env c)).1).2 ≠ none ∨
      (format ≠ "svg" ∧ (env.ConvertSvgToBinary
        (env.CombineSVG (env.GetAccessoriesForHash hash (backgroundFlag env c)).1).1
        format (uint size)).2 ≠ none)) :
    ∃ msg, (iconRender env hash c format size).resp = .string 500 msg := by
  unfold backgroundFlag at h
  unfold iconRender
  simp only []
  split
  · exact ⟨_, rfl⟩
  · rename_i h1
    split
    · exact ⟨_, rfl⟩
    · rename_i h2
      rcases h with h | h | h
      · exact absurd h1 h
      · exact absurd h2 h
      · rw [if_pos h.1]
        split
        · exact ⟨_, rfl⟩
        · rename_i h3
          exact absurd h3 h.2

/-- C8, the failing input: the vanity asset `broken.svg`, for which `PureSVG`
returns an error. `generateVanityAsset` answers 200 with an svg body for the
default format, and converts the failed rendering and answers 200 with a png
body for format png. -/
theorem vanity_render_failure_answers_200 :
    (sampleEnv.PureSVG ⟨"broken.svg"⟩ false).2 = some "no such asset" ∧
    generateVanityAsset sampleEnv ⟨"broken.svg"⟩ (sampleContext addrB "" "")
      = ⟨[Call.pureSVG ⟨"broken.svg"⟩ false],
          .data 200 "image/svg+xml; charset=utf-8" []⟩ ∧
    generateVanityAsset sampleEnv ⟨"broken.svg"⟩ (sampleContext addrB "png" "")
      = ⟨[Call.pureSVG ⟨"broken.svg"⟩ false, Call.convertSvgToBinary [] "png" 128],
          .data 200 "image/png" [128]⟩ := by
  decide

/-! ## Go maps -/

theorem GoMap.load_store_same {V : Type} (m : GoMap V) (k : String) (v : V) :
    GoMap.load (GoMap.store m k v) k = some v := by
  induction m with
  | nil => simp [GoMap.store, GoMap.load]
  | cons p rest ih =>
    obtain ⟨k', v'⟩ := p
    by_cases h : k' = k
    · simp [GoMap.store, GoMap.load, h]
    · simp [GoMap.store, GoMap.load, h, ih]

theorem GoMap.load_store_ne {V : Type} (m : GoMap V) (k k' : String) (v : V) (h : k' ≠ k) :
    GoMap.load (GoMap.store m k v) k' = GoMap.load m k' := by
  induction m with
  | nil => simp [GoMap.store, GoMap.load, Ne.symm h]
  | cons p rest ih =>
    obtain ⟨k0, v0⟩ := p
    by_cases h0 : k0 = k
    · subst h0
      simp [GoMap.store, GoMap.load, Ne.symm h]
    · by_cases h1 : k0 = k'
      · subst h1
        simp [GoMap.store, GoMap.load, h0]
      · simp [GoMap.store, GoMap.load, h0, h1, ih]

theorem GoMap.mem_keys_store {V : Type} (m : GoMap V) (k k' : String) (v : V) :
    k' ∈ GoMap.keys (GoMap.store m k v) ↔ k' = k ∨ k' ∈ GoMap.keys m := by
  induction m with
  | nil => simp [GoMap.store, GoMap.keys]
  | cons p rest ih =>
    obtain ⟨k0, v0⟩ := p
    by_cases h0 : k0 = k
    · subst h0
      simp [GoMap.store, GoMap.keys]
    · simp only [GoMap.keys] at ih
      simp only [GoMap.store, GoMap.keys, if_neg h0, List.map_cons, List.mem_cons, ih]
      tauto

theorem GoMap.nodup_keys_store {V : Type} (m : GoMap V) (k : String) (v : V)
    (h : (GoMap.keys m).Nodup) : (GoMap.keys (GoMap.store m k v)).Nodup := by
  induction m with
  | nil => simp [GoMap.store, GoMap.keys]
  | cons p rest ih =>
    obtain ⟨k0, v0⟩ := p
    have h' : k0 ∉ GoMap.keys rest ∧ (GoMap.keys rest).Nodup := by
      simpa [GoMap.keys] using h
    by_cases h0 : k0 = k
    · subst h0
      simpa [GoMap.store, GoMap.keys] using h
    · have hk : k0 ∉ GoMap.keys (GoMap.store rest k v) := by
        rw [GoMap.mem_keys_store]
        rintro (h1 | h1)
        · exact h0 h1
        · exact h'.1 h1
      have := ih h'.2
      simp only [GoMap.store, if_neg h0]
      simp only [GoMap.keys, List.map_cons, List.nodup_cons]
      exact ⟨hk, this⟩

/-! ## Keys of a stats entry -/

theorem colorKey_data (k : String) :
    ("color_" ++ k).data = 'c' :: 'o' :: 'l' :: 'o' :: 'r' :: '_' :: k.data := by
  rw [String.data_append]
  rfl

theorem colorKey_inj (k k' : String) (h : "color_" ++ k = "color_" ++ k') : k = k' := by
  have hd := congrArg String.data h
  rw [colorKey_data, colorKey_data] at hd
  have : k.data = k'.data := by simpa using hd
  exact String.ext this

theorem colorKey_ne (k key : String) (h : key.data.head? ≠ some 'c') : key ≠ "color_" ++ k := by
  intro he
  apply h
  rw [he, colorKey_data]
  rfl

theorem mem_keys_statsColors (env : Env) (colors : GoMap Color) (entry : GoMap String)
    (key : String) :
    key ∈ GoMap.keys (statsColors env colors entry) ↔
      key ∈ GoMap.keys entry ∨ ∃ name ∈ GoMap.keys colors, key = "color_" ++ name := by
  induction colors generalizing entry with
  | nil => simp [statsColors, GoMap.keys]
  | cons p rest ih =>
    obtain ⟨k, v⟩ := p
    simp only [statsColors]
    rw [ih, GoMap.mem_keys_store]
    simp only [GoMap.keys, List.map_cons, List.mem_cons, exists_eq_or_imp]
    tauto

theorem load_statsColors_other (env : Env) (colors : GoMap Color) (entry : GoMap String)
    (key : String) (h : ∀ name ∈ GoMap.keys colors, key ≠ "color_" ++ name) :
    GoMap.load (statsColors env colors entry) key = GoMap.load entry key := by
  induction colors generalizing entry with
  | nil => rfl
  | cons p rest ih =>
    obtain ⟨k, v⟩ := p
    simp only [statsColors]
    rw [ih, GoMap.load_store_ne]
    · exact h k (by simp [GoMap.keys])
    · intro name hn
      exact h name (by simp only [GoMap.keys] at hn; simp [GoMap.keys, hn])

theorem load_statsColors_color (env : Env) (colors : GoMap Color) (entry : GoMap String)
    (name : String) (v : Color) (hnd : (GoMap.keys colors).Nodup)
    (h : GoMap.load colors name = some v) :
    GoMap.load (statsColors env colors entry) ("color_" ++ name) = some (env.ToHTML v true) := by
  induction colors generalizing entry with
  | nil => simp [GoMap.load] at h
  | cons p rest ih =>
    obtain ⟨k, v0⟩ := p
    have hnd' : k ∉ GoMap.keys rest ∧ (GoMap.keys rest).Nodup := by
      simpa [GoMap.keys] using hnd
    simp only [statsColors]
    by_cases hk : k = name
    · subst hk
      simp only [GoMap.load, if_true] at h
      injection h with h
      subst h
      rw [load_statsColors_other, GoMap.load_store_same]
      intro name' hn' he
      have := colorKey_inj _ _ he
      subst this
      exact hnd'.1 hn'
    · simp only [GoMap.load, if_neg hk] at h
      exact ih _ hnd'.2 h

/-! ## The loop of `AnimalStats` -/

theorem statsLoop_valid (env : Env) (mc : AnimalController) (committed : Option Nat)
    (addresses : List String) (ret : AnimalStatsResponseItem) (log : List Call)
    (h : ∀ a ∈ addresses, ValidateAddress env a = true) :
    (statsLoop env mc committed addresses ret log).resp
      = .json (sentStatus committed 200) (statsMap env mc addresses ret) := by
  induction addresses generalizing ret log with
  | nil => rfl
  | cons a rest ih =>
    have ha : ValidateAddress env a = true := h a (by simp)
    simp only [statsLoop, ha, statsMap]
    exact ih _ _ (fun b hb => h b (by simp [hb]))

theorem statsLoop_calls (env : Env) (mc : AnimalController) (committed : Option Nat)
    (addresses : List String) (ret : AnimalStatsResponseItem) (log : List Call) (call : Call)
    (h : call ∈ (statsLoop env mc committed addresses ret log).calls) :
    call ∈ log ∨ (∃ d s, call = .sha256 d s) ∨ ∃ hash, call = .getAccessoriesForHash hash true := by
  induction addresses generalizing ret log with
  | nil => exact Or.inl h
  | cons b rest ih =>
    cases hb : ValidateAddress env b with
    | false =>
      simp only [statsLoop, hb] at h
      exact Or.inl h
    | true =>
      simp only [statsLoop, hb] at h
      rcases ih _ _ h with h1 | h1 | h1
      · simp only [List.mem_append, List.mem_cons, List.mem_singleton, List.not_mem_nil,
          or_false] at h1
        rcases h1 with h1 | h1 | h1
        · exact Or.inl h1
        · exact Or.inr (Or.inl ⟨_, _, h1⟩)
        · exact Or.inr (Or.inr ⟨_, h1⟩)
      · exact Or.inr (Or.inl h1)
      · exact Or.inr (Or.inr h1)

theorem mem_keys_statsMap (env : Env) (mc : AnimalController) (addresses : List String)
    (ret : AnimalStatsResponseItem) (a : String) :
    a ∈ GoMap.keys (statsMap env mc addresses ret) ↔ a ∈ GoMap.keys ret ∨ a ∈ addresses := by
  induction addresses generalizing ret with
  | nil => simp [statsMap]
  | cons b rest ih =>
    simp only [statsMap]
    rw [ih, GoMap.mem_keys_store]
    simp only [List.mem_cons]
    tauto

theorem nodup_keys_statsMap (env : Env) (mc : AnimalController) (addresses : List String)
    (ret : AnimalStatsResponseItem) (h : (GoMap.keys ret).Nodup) :
    (GoMap.keys (statsMap env mc addresses ret)).Nodup := by
  induction addresses generalizing ret with
  | nil => exact h
  | cons b rest ih =>
    simp only [statsMap]
    exact ih _ (GoMap.nodup_keys_store ret b _ h)

theorem load_statsMap_other (env : Env) (mc : AnimalController) (addresses : List String)
    (ret : AnimalStatsResponseItem) (a : String) (h : a ∉ addresses) :
    GoMap.load (statsMap env mc addresses ret) a = GoMap.load ret a := by
  induction addresses generalizing ret with
  | nil => rfl
  | cons b rest ih =>
    simp only [List.mem_cons, not_or] at h
    simp only [statsMap]
    rw [ih _ h.2, GoMap.load_store_ne _ _ _ _ h.1]

theorem load_statsMap (env : Env) (mc : AnimalController) (addresses : List String)
    (ret : AnimalStatsResponseItem) (a : String) (h : a ∈ addresses) :
    GoMap.load (statsMap env mc addresses ret) a
      = some (statsEntry env (statsSelection env mc a)) := by
  induction addresses generalizing ret with
  | nil => simp at h
  | cons b rest ih =>
    simp only [statsMap]
    by_cases hr : a ∈ rest
    · exact ih _ hr
    · have hab : a = b := by
        rcases List.mem_cons.mp h with h | h
        · exact h
        · exact absurd h hr
      subst hab
      rw [load_statsMap_other _ _ _ _ _ hr, GoMap.load_store_same]

theorem length_statsMap (env : Env) (mc : AnimalController) (addresses : List String) :
    (statsMap env mc addresses []).length = addresses.dedup.length := by
  have hnd : (GoMap.keys (statsMap env mc addresses [])).Nodup :=
    nodup_keys_statsMap env mc addresses [] (by simp [GoMap.keys])
  have hset : (GoMap.keys (statsMap env mc addresses [])).toFinset = addresses.toFinset := by
    ext a
    simp only [List.mem_toFinset]
    rw [mem_keys_statsMap]
    simp [GoMap.keys]
  have h1 : (statsMap env mc addresses []).length
      = (GoMap.keys (statsMap env mc addresses [])).length := by
    simp [GoMap.keys]
  rw [h1, ← List.toFinset_card_of_nodup hnd, hset, List.card_toFinset]

theorem load_statsEntry_accessory (env : Env) (acc : Accessories) :
    GoMap.load (statsEntry env acc) "glasses" = some (assetName acc.GlassesAsset) ∧
    GoMap.load (statsEntry env acc) "hat" = some (assetName acc.HatAsset) ∧
    GoMap.load (statsEntry env acc) "misc" = some (assetName acc.MiscAsset) ∧
    GoMap.load (statsEntry env acc) "mouth" = some (assetName acc.MouthAsset) ∧
    GoMap.load (statsEntry env acc) "shirt_pants" = some (assetName acc.ShirtPantsAsset) ∧
    GoMap.load (statsEntry env acc) "shoes" = some (assetName acc.ShoeAsset) ∧
    GoMap.load (statsEntry env acc) "tail_accessory" = some (assetName acc.TailAccessory) ∧
    GoMap.load (statsEntry env acc) "background_color" = some acc.BGColor := by
  unfold statsEntry
  simp only []
  refine ⟨?_, ?_, ?_, ?_, ?_, ?_, ?_, ?_⟩ <;>
    (rw [load_statsColors_other _ _ _ _ (fun name _ => colorKey_ne name _ (by decide))]
     simp [GoMap.store, GoMap.load])

theorem mem_keys_statsEntry (env : Env) (acc : Accessories) (key : String) :
    key ∈ GoMap.keys (statsEntry env acc) ↔
      key = "background_color" ∨ key ∈ accessoryKeys ∨
        ∃ name ∈ GoMap.keys acc.AccessoryColors, key = "color_" ++ name := by
  unfold statsEntry
  simp only []
  rw [mem_keys_statsColors]
  simp only [GoMap.store, GoMap.keys, accessoryKeys]
  simp
  tauto

theorem statsLoop_first_invalid (env : Env) (mc : AnimalController) (committed : Option Nat)
    (addresses : List String) (ret : AnimalStatsResponseItem) (log : List Call)
    (h : ∃ a ∈ addresses, ValidateAddress env a = false) :
    ∃ (pre : List String) (a : String) (post : List String),
      addresses = pre ++ a :: post ∧ (∀ b ∈ pre, ValidateAddress env b = true) ∧
      ValidateAddress env a = false ∧
      (statsLoop env mc committed addresses ret log).resp
        = .string (sentStatus committed 400) ("Invalid address in address list " ++ a) := by
  induction addresses generalizing ret log with
  | nil =>
    obtain ⟨a, ha, _⟩ := h
    simp at ha
  | cons b rest ih =>
    cases hb : ValidateAddress env b with
    | false =>
      refine ⟨[], b, rest, rfl, by simp, hb, ?_⟩
      simp [statsLoop, hb]
    | true =>
      have h' : ∃ a ∈ rest, ValidateAddress env a = false := by
        obtain ⟨a, ha, hva⟩ := h
        rcases List.mem_cons.mp ha with ha | ha
        · subst ha
          rw [hb] at hva
          cases hva
        · exact ⟨a, ha, hva⟩
      obtain ⟨pre, a, post, he, hpre, ha, hresp⟩ :=
        ih (GoMap.store ret b (statsEntry env (statsSelection env mc b)))
          (log ++ [Call.sha256 (AddressToPub env b) mc.Seed,
            Call.getAccessoriesForHash (env.Sha256 (AddressToPub env b) mc.Seed) true]) h'
      refine ⟨b :: pre, a, post, by rw [he]; rfl, ?_, ha, ?_⟩
      · intro x hx
        rcases List.mem_cons.mp hx with hx | hx
        · rw [hx]; exact hb
        · exact hpre x hx
      · simp only [statsLoop, hb]
        exact hresp

theorem statsLoop_vanity_table (env : Env) (mc : AnimalController) (committed : Option Nat)
    (addresses : List String) (ret : AnimalStatsResponseItem) (log : List Call)
    (table : String → Option Asset) :
    statsLoop { env with GetVanityAsset := table } mc committed addresses ret log
      = statsLoop env mc committed addresses ret log := by
  induction addresses generalizing ret log with
  | nil => rfl
  | cons b rest ih =>
    have hv : ValidateAddress { env with GetVanityAsset := table } b = ValidateAddress env b := rfl
    have hp : AddressToPub { env with GetVanityAsset := table } b = AddressToPub env b := rfl
    have he : ∀ acc, statsEntry { env with GetVanityAsset := table } acc = statsEntry env acc := by
      intro acc
      have hc : ∀ colors entry,
          statsColors { env with GetVanityAsset := table } colors entry
            = statsColors env colors entry := by
        intro colors
        induction colors with
        | nil => intro entry; rfl
        | cons p tl ihc =>
          intro entry
          obtain ⟨k, v⟩ := p
          simp only [statsColors]
          exact ihc _
      simp only [statsEntry, hc]
    simp only [statsLoop, hv, hp, he, ih]

theorem AnimalStats_eq (env : Env) (mc : AnimalController) (c : Context) :
    AnimalStats env mc c = statsLoop env mc (bindCommitted c) c.BindJSON.1.Addresses [] [] :=
  rfl

theorem sentStatus_bind_400 (c : Context) : sentStatus (bindCommitted c) 400 = 400 := by
  unfold bindCommitted
  cases c.BindJSON.2 <;> rfl

theorem sentStatus_bind_200 (c : Context) :
    sentStatus (bindCommitted c) 200 = if c.BindJSON.2 = none then 200 else 400 := by
  unfold bindCommitted
  cases c.BindJSON.2 <;> rfl

theorem AnimalStats_valid (env : Env) (mc : AnimalController) (c : Context)
    (h : ∀ a ∈ c.BindJSON.1.Addresses, ValidateAddress env a = true) :
    (AnimalStats env mc c).resp
      = .json (if c.BindJSON.2 = none then 200 else 400)
          (statsMap env mc c.BindJSON.1.Addresses []) := by
  rw [AnimalStats_eq, statsLoop_valid env mc _ _ [] [] h, sentStatus_bind_200]

/-! ## The address check -/

/-- The comment on `ValidateAddress` speaks of nano addresses; a text with the
prefix `nano_` holds no match of `pawRegexStr` and is refused before the library
is asked, whatever the library would answer. -/
theorem ValidateAddress_nano_address (env : Env) :
    ValidateAddress env "nano_3t6k35gi95xu6tergt6p69ck76ogmitsa8mnijtpxm9fkcm736xtoncuohr3"
      = false := by
  have h : pawRegexMatchString
      "nano_3t6k35gi95xu6tergt6p69ck76ogmitsa8mnijtpxm9fkcm736xtoncuohr3" = false := by
    decide
  simp [ValidateAddress, h]

/-! ## Claims on `AnimalStats` -/

/-- C5, as stated, fails: for the list of two valid addresses in which `addrA`
occurs twice the result has one entry. -/
theorem stats_duplicate_address_yields_one_entry :
    (∀ a ∈ (statsContext [addrA, addrA] none).BindJSON.1.Addresses,
      ValidateAddress sampleEnv a = true) ∧
    (statsContext [addrA, addrA] none).BindJSON.1.Addresses.length = 2 ∧
    (AnimalStats sampleEnv ⟨"s"⟩ (statsContext [addrA, addrA] none)).resp
      = .json 200 [(addrA, [("background_color", "#aabbcc"), ("glasses", "01ffs.svg"),
          ("hat", "none"), ("misc", "none"), ("mouth", "none"), ("shirt_pants", "none"),
          ("shoes", "none"), ("tail_accessory", "none"), ("color_fur", "#010203")])] := by
  decide

/-- C5, amended: for every request whose bound addresses are all valid,
`AnimalStats` sends a JSON map, under status 200 when the body bound without
error, holding one entry per distinct address, hence exactly N entries when the
N addresses are pairwise distinct, and the entry of every address of the list
holds all seven category keys, each with the file name of the selected asset or
`none` when the category has no selected asset. -/
theorem stats_entry_per_distinct_address (env : Env) (mc : AnimalController) (c : Context)
    (hvalid : ∀ a ∈ c.BindJSON.1.Addresses, ValidateAddress env a = true) :
    ∃ ret, (AnimalStats env mc c).resp
        = .json (if c.BindJSON.2 = none then 200 else 400) ret ∧
      ret.length = c.BindJSON.1.Addresses.dedup.length ∧
      (c.BindJSON.1.Addresses.Nodup → ret.length = c.BindJSON.1.Addresses.length) ∧
      ∀ a ∈ c.BindJSON.1.Addresses, ∃ entry, GoMap.load ret a = some entry ∧
        GoMap.load entry "glasses" = some (assetName (statsSelection env mc a).GlassesAsset) ∧
        GoMap.load entry "hat" = some (assetName (statsSelection env mc a).HatAsset) ∧
        GoMap.load entry "misc" = some (assetName (statsSelection env mc a).MiscAsset) ∧
        GoMap.load entry "mouth" = some (assetName (statsSelection env mc a).MouthAsset) ∧
        GoMap.load entry "shirt_pants"
          = some (assetName (statsSelection env mc a).ShirtPantsAsset) ∧
        GoMap.load entry "shoes" = some (assetName (statsSelection env mc a).ShoeAsset) ∧
        GoMap.load entry "tail_accessory"
          = some (assetName (statsSelection env mc a).TailAccessory) := by
  refine ⟨statsMap env mc c.BindJSON.1.Addresses [], AnimalStats_valid env mc c hvalid,
    length_statsMap env mc _, ?_, ?_⟩
  · intro hnd
    rw [length_statsMap, hnd.dedup]
  · intro a ha
    obtain ⟨h1, h2, h3, h4, h5, h6, h7, _⟩ :=
      load_statsEntry_accessory env (statsSelection env mc a)
    exact ⟨_, load_statsMap env mc _ [] a ha, h1, h2, h3, h4, h5, h6, h7⟩

/-- C5, amended, at the list of the two distinct valid addresses `addrA` and
`addrB`, bound without error: two entries under status 200. -/
theorem stats_entry_per_distinct_address_witness :
    (∀ a ∈ (statsContext [addrA, addrB] none).BindJSON.1.Addresses,
      ValidateAddress sampleEnv a = true) ∧
    ∃ ret, (AnimalStats sampleEnv ⟨"s"⟩ (statsContext [addrA, addrB] none)).resp
        = .json 200 ret ∧
      ret.length = 2 := by
  have hv : ∀ a ∈ (statsContext [addrA, addrB] none).BindJSON.1.Addresses,
      ValidateAddress sampleEnv a = true := by decide
  obtain ⟨ret, hr, _, hn, _⟩ :=
    stats_entry_per_distinct_address sampleEnv ⟨"s"⟩ (statsContext [addrA, addrB] none) hv
  exact ⟨hv, ret, hr, hn (by decide)⟩

/-- C6, as stated, fails: the entry emitted for `addrA` has the key
`background_color`, which is neither one of the seven accessory keys nor
`color_<name>` for a colour category of the selection. -/
theorem stats_entry_has_unlisted_key :
    (AnimalStats sampleEnv ⟨"s"⟩ (statsContext [addrA] none)).resp
      = .json 200 [(addrA, [("background_color", "#aabbcc"), ("glasses", "01ffs.svg"),
          ("hat", "none"), ("misc", "none"), ("mouth", "none"), ("shirt_pants", "none"),
          ("shoes", "none"), ("tail_accessory", "none"), ("color_fur", "#010203")])] ∧
    (statsSelection sampleEnv ⟨"s"⟩ addrA).AccessoryColors = [("fur", ⟨1, 2, 3, 255⟩)] ∧
    isListedKey (statsSelection sampleEnv ⟨"s"⟩ addrA).AccessoryColors "background_color"
      = false := by
  decide

/-- C6, amended: for every address of a request whose bound addresses are all
valid, the entry that `AnimalStats` emits has exactly these keys:
`background_color`, holding the background colour of the selection, the seven
accessory-category keys, and `color_<name>` for each colour category `<name>`
of the selection, holding that colour rendered by `ToHTML(true)`; the JSON map
goes out under status 200 when the body bound without error. -/
theorem stats_entry_keys (env : Env) (mc : AnimalController) (c : Context)
    (a : String) (hvalid : ∀ b ∈ c.BindJSON.1.Addresses, ValidateAddress env b = true)
    (ha : a ∈ c.BindJSON.1.Addresses) :
    ∃ ret entry, (AnimalStats env mc c).resp
        = .json (if c.BindJSON.2 = none then 200 else 400) ret ∧
      GoMap.load ret a = some entry ∧
      (∀ key, key ∈ GoMap.keys entry ↔
        key = "background_color" ∨ key ∈ accessoryKeys ∨
          ∃ name ∈ GoMap.keys (statsSelection env mc a).AccessoryColors,
            key = "color_" ++ name) ∧
      GoMap.load entry "background_color" = some (statsSelection env mc a).BGColor ∧
      ((GoMap.keys (statsSelection env mc a).AccessoryColors).Nodup →
        ∀ name v, GoMap.load (statsSelection env mc a).AccessoryColors name = some v →
          GoMap.load entry ("color_" ++ name) = some (env.ToHTML v true)) := by
  refine ⟨statsMap env mc c.BindJSON.1.Addresses [], statsEntry env (statsSelection env mc a),
    AnimalStats_valid env mc c hvalid, load_statsMap env mc _ [] a ha,
    mem_keys_statsEntry env _, (load_statsEntry_accessory env _).2.2.2.2.2.2.2, ?_⟩
  intro hnd name v hl
  unfold statsEntry
  exact load_statsColors_color env _ _ name v hnd hl

/-- C6, amended, at the list `addrA`, `addrB` bound without error: the entry of
`addrA` holds the key `background_color` and the colour key `color_fur`. -/
theorem stats_entry_keys_witness :
    (∀ b ∈ (statsContext [addrA, addrB] none).BindJSON.1.Addresses,
      ValidateAddress sampleEnv b = true) ∧
    addrA ∈ (statsContext [addrA, addrB] none).BindJSON.1.Addresses ∧
    ∃ ret entry, (AnimalStats sampleEnv ⟨"s"⟩ (statsContext [addrA, addrB] none)).resp
        = .json 200 ret ∧
      GoMap.load ret addrA = some entry ∧
      "background_color" ∈ GoMap.keys entry ∧ "color_fur" ∈ GoMap.keys entry := by
  have hv : ∀ b ∈ (statsContext [addrA, addrB] none).BindJSON.1.Addresses,
      ValidateAddress sampleEnv b = true := by decide
  have hm : addrA ∈ (statsContext [addrA, addrB] none).BindJSON.1.Addresses := by decide
  obtain ⟨ret, entry, hr, hl, hk, _, _⟩ :=
    stats_entry_keys sampleEnv ⟨"s"⟩ (statsContext [addrA, addrB] none) addrA hv hm
  refine ⟨hv, hm, ret, entry, hr, hl, (hk _).2 (Or.inl rfl), (hk _).2 (Or.inr (Or.inr ?_))⟩
  exact ⟨"fur", by decide, by decide⟩

/-- C7: on the address list that `c.BindJSON` leaves in the request, whether or
not the bind failed: when some address fails `ValidateAddress`, `AnimalStats`
sends status 400 with the text naming the first such address, whatever came
before it, and no JSON body; a JSON body, under whatever status, is sent exactly
when every address is valid, and it then goes out under status 200 when the
body bound without error and under the status 400 of the failed bind
otherwise. -/
theorem stats_all_or_nothing (env : Env) (mc : AnimalController) (c : Context) :
    ((∃ a ∈ c.BindJSON.1.Addresses, ValidateAddress env a = false) →
      ∃ (pre : List String) (a : String) (post : List String),
        c.BindJSON.1.Addresses = pre ++ a :: post ∧
        (∀ b ∈ pre, ValidateAddress env b = true) ∧
        ValidateAddress env a = false ∧
        (AnimalStats env mc c).resp
          = .string 400 ("Invalid address in address list " ++ a)) ∧
    ((∃ code ret, (AnimalStats env mc c).resp = .json code ret) ↔
      ∀ a ∈ c.BindJSON.1.Addresses, ValidateAddress env a = true) ∧
    ((∀ a ∈ c.BindJSON.1.Addresses, ValidateAddress env a = true) →
      ∃ ret, (AnimalStats env mc c).resp
        = .json (if c.BindJSON.2 = none then 200 else 400) ret) := by
  have hbad : (∃ a ∈ c.BindJSON.1.Addresses, ValidateAddress env a = false) →
      ∃ (pre : List String) (a : String) (post : List String),
        c.BindJSON.1.Addresses = pre ++ a :: post ∧
        (∀ b ∈ pre, ValidateAddress env b = true) ∧
        ValidateAddress env a = false ∧
        (AnimalStats env mc c).resp
          = .string 400 ("Invalid address in address list " ++ a) := by
    intro h
    obtain ⟨pre, a, post, he, hpre, ha, hresp⟩ :=
      statsLoop_first_invalid env mc (bindCommitted c) c.BindJSON.1.Addresses [] [] h
    rw [sentStatus_bind_400] at hresp
    exact ⟨pre, a, post, he, hpre, ha, by rw [AnimalStats_eq]; exact hresp⟩
  refine ⟨hbad, ⟨?_, ?_⟩, ?_⟩
  · rintro ⟨code, ret, hr⟩ a ha
    by_contra hva
    have hva' : ValidateAddress env a = false := by simpa using hva
    obtain ⟨_, b, _, _, _, _, hresp⟩ := hbad ⟨a, ha, hva'⟩
    rw [hresp] at hr
    cases hr
  · intro hv
    exact ⟨_, _, AnimalStats_valid env mc c hv⟩
  · intro hv
    exact ⟨_, AnimalStats_valid env mc c hv⟩

/-- C7 at three requests: the list `addrA`, `addrBad`, `addrB` is answered with
the 400 text naming `addrBad`, with no entry for `addrA`; a body that failed to
bind and left the valid `addrA` is answered with the JSON entry of `addrA`
under status 400; a body that failed to bind and left `addrBad` is answered
with the 400 text. -/
theorem stats_all_or_nothing_witness :
    (∃ a ∈ (statsContext [addrA, addrBad, addrB] none).BindJSON.1.Addresses,
      ValidateAddress sampleEnv a = false) ∧
    (AnimalStats sampleEnv ⟨"s"⟩ (statsContext [addrA, addrBad, addrB] none)).resp
      = .string 400 "Invalid address in address list nano_1111" ∧
    (¬ ∃ code ret, (AnimalStats sampleEnv ⟨"s"⟩
      (statsContext [addrA, addrBad, addrB] none)).resp = .json code ret) ∧
    (AnimalStats sampleEnv ⟨"s"⟩ (statsContext [addrA] (some "unexpected EOF"))).resp
      = .json 400 [(addrA, [("background_color", "#aabbcc"), ("glasses", "01ffs.svg"),
          ("hat", "none"), ("misc", "none"), ("mouth", "none"), ("shirt_pants", "none"),
          ("shoes", "none"), ("tail_accessory", "none"), ("color_fur", "#010203")])] ∧
    (AnimalStats sampleEnv ⟨"s"⟩ (statsContext [addrBad] (some "unexpected EOF"))).resp
      = .string 400 "Invalid address in address list nano_1111" :=
  ⟨⟨addrBad, by decide, by decide⟩, by decide,
    fun h => absurd
      (((stats_all_or_nothing sampleEnv ⟨"s"⟩
        (statsContext [addrA, addrBad, addrB] none)).2.1).1 h addrBad (by decide))
      (by decide),
    by decide, by decide⟩

/-- C9, as stated, fails: `addrB` is valid and in the vanity table, yet the entry
reported for it is the digest-driven one, named after the digest of its public
key under the seed, and it changes with the seed. -/
theorem stats_vanity_address_reports_digest_selection :
    ValidateAddress sampleEnv addrB = true ∧
    sampleEnv.GetVanityAsset addrB = some ⟨"vanity.svg"⟩ ∧
    AnimalStats sampleEnv ⟨"s1"⟩ (statsContext [addrB] none)
      = ⟨[Call.sha256 "01ff" "s1", Call.getAccessoriesForHash "01ffs1" true],
          .json 200 [(addrB, [("background_color", "#aabbcc"), ("glasses", "01ffs1.svg"),
            ("hat", "none"), ("misc", "none"), ("mouth", "none"), ("shirt_pants", "none"),
            ("shoes", "none"), ("tail_accessory", "none"), ("color_fur", "#010203")])]⟩ ∧
    AnimalStats sampleEnv ⟨"s1"⟩ (statsContext [addrB] none)
      ≠ AnimalStats sampleEnv ⟨"s2"⟩ (statsContext [addrB] none) := by
  decide

/-- C9, amended: for every request whose bound addresses are all valid, the
entry `AnimalStats` reports for an address is always the one derived from
`GetAccessoriesForHash` applied to the digest of the address with background
enabled, whether or not the address is in the vanity table: the outcome is the
same for every vanity table, and the only calls made are digests and selections
with background enabled; the JSON map goes out under status 200 when the body
bound without error. -/
theorem stats_selection_is_digest_driven (env : Env) (mc : AnimalController)
    (c : Context) (hvalid : ∀ a ∈ c.BindJSON.1.Addresses, ValidateAddress env a = true) :
    (∃ ret, (AnimalStats env mc c).resp
        = .json (if c.BindJSON.2 = none then 200 else 400) ret ∧
      ∀ a ∈ c.BindJSON.1.Addresses, GoMap.load ret a = some (statsEntry env
        (env.GetAccessoriesForHash (env.Sha256 (AddressToPub env a) mc.Seed) true).1)) ∧
    (∀ table : String → Option Asset,
      AnimalStats { env with GetVanityAsset := table } mc c = AnimalStats env mc c) ∧
    (∀ call ∈ (AnimalStats env mc c).calls,
      (∃ d s, call = .sha256 d s) ∨ ∃ hash, call = .getAccessoriesForHash hash true) := by
  refine ⟨⟨statsMap env mc c.BindJSON.1.Addresses [], AnimalStats_valid env mc c hvalid, ?_⟩,
    ?_, ?_⟩
  · intro a ha
    exact load_statsMap env mc _ [] a ha
  · intro table
    exact statsLoop_vanity_table env mc _ _ [] [] table
  · intro call hc
    rcases statsLoop_calls env mc _ _ [] [] call hc with h | h | h
    · simp at h
    · exact Or.inl h
    · exact Or.inr h

/-- C9, amended, at the list `addrA`, `addrB`: emptying the vanity table does
not change the outcome. -/
theorem stats_selection_is_digest_driven_witness :
    (∀ a ∈ (statsContext [addrA, addrB] none).BindJSON.1.Addresses,
      ValidateAddress sampleEnv a = true) ∧
    AnimalStats { sampleEnv with GetVanityAsset := fun _ => none } ⟨"s"⟩
        (statsContext [addrA, addrB] none)
      = AnimalStats sampleEnv ⟨"s"⟩ (statsContext [addrA, addrB] none) :=
  ⟨by decide,
    (stats_selection_is_digest_driven sampleEnv ⟨"s"⟩ (statsContext [addrA, addrB] none)
      (by decide)).2.1 (fun _ => none)⟩

end Animal
